import Mathlib

/-!
Verification of the WatchCBB core pipeline against its specification.

The definitions below are shallow embeddings of the Python sources:
  * `src/watchcbb/utils.py` — season aggregation (`compute_season_stats`),
    advanced stats (`add_advanced_stats`), training-feature compilation
    (`compile_training_data` with `sort='alphabetical'`), and the upset
    predicates (`is_upset`, `get_df_upset_prob`);
  * `src/watchcbb/scrape/SportsRefScrape.py` — the game-id / dedup logic of
    `get_game_data` (`get_gid`, the per-date `gids` buckets), winner
    orientation with location flipping, and the game-type / location
    normalizations.

Machine integers are modelled as `Int`, floating-point dataframe arithmetic
as `Rat` (the float literals 0.44, 0.5, 0.125, 100 appear as the exact
rationals the source spells), calendar dates as serial day numbers (`Int`,
so the previous calendar day of `d` is `d - 1`), and Python `None` /
raised exceptions as `Option`.
-/

/-! ## Upset predicates (utils.py lines 216-228) -/

/-- `is_upset(r1, r2)` from utils.py: true if `r1` beating `r2` is
classified as an upset.  Python: `(r1 < 0 and 0 < r2 <= 20) or
(r1 > 0 and r2 > 0 and r1-r2 > 10)`. -/
def is_upset (r1 r2 : Rat) : Prop :=
  (r1 < 0 ∧ 0 < r2 ∧ r2 ≤ 20) ∨ (r1 > 0 ∧ r2 > 0 ∧ r1 - r2 > 10)

instance is_upset.decidable (r1 r2 : Rat) : Decidable (is_upset r1 r2) := by
  unfold is_upset; infer_instance

/-- `get_df_upset_prob(row)` from utils.py, with the row's `rank1`, `rank2`,
`prob` fields passed explicitly. -/
def get_df_upset_prob (rank1 rank2 prob : Rat) : Rat :=
  if is_upset rank1 rank2 then prob
  else if is_upset rank2 rank1 then 1 - prob
  else 0

/-- Claim C10: for all rank values `r1`, `r2`, `is_upset r1 r2` and
`is_upset r2 r1` are never both true, so the two branches of
`get_df_upset_prob` returning `prob` and `1-prob` are mutually exclusive,
and the function always returns one of `prob`, `1-prob`, `0`. -/
theorem upset_prob_exclusive (r1 r2 p : Rat) :
    ¬(is_upset r1 r2 ∧ is_upset r2 r1) ∧
    (get_df_upset_prob r1 r2 p = p ∨ get_df_upset_prob r1 r2 p = 1 - p ∨
      get_df_upset_prob r1 r2 p = 0) := by
  constructor
  · rintro ⟨h1, h2⟩
    rcases h1 with ⟨a1, a2, a3⟩ | ⟨b1, b2, b3⟩ <;>
      rcases h2 with ⟨c1, c2, c3⟩ | ⟨d1, d2, d3⟩ <;> linarith
  · unfold get_df_upset_prob
    split_ifs <;> tauto

/-! ## Location-code normalization (SportsRefScrape.py lines 135-140)

The raw cell content is an `Option String`: `none` models a blank cell
(BeautifulSoup's `.string` returning Python `None`).  The result is
`none` exactly when the source raises `Exception(loc)`. -/

/-- The location normalization of `get_game_data`:
`if loc==None: loc="H"; elif loc=="@": loc="A"; elif loc=="N": loc="N";
else: raise Exception(loc)`. -/
def normalize_loc : Option String → Option String
  | none => some "H"
  | some s => if s = "@" then some "A" else if s = "N" then some "N" else none

/-- Claim C6: location normalization is total on exactly three inputs —
blank/absent maps to "H", "@" to "A", "N" to "N" — and any other value
makes extraction of the record fail (modelled as `none`) rather than being
coerced to a default; every successful result is one of "H", "A", "N". -/
theorem normalize_loc_total :
    normalize_loc none = some "H" ∧
    normalize_loc (some "@") = some "A" ∧
    normalize_loc (some "N") = some "N" ∧
    (∀ s : String, s ≠ "@" → s ≠ "N" → normalize_loc (some s) = none) ∧
    (∀ x r, normalize_loc x = some r → r = "H" ∨ r = "A" ∨ r = "N") := by
  refine ⟨rfl, rfl, rfl, ?_, ?_⟩
  · intro s h1 h2
    simp [normalize_loc, h1, h2]
  · intro x r h
    match x with
    | none => simp [normalize_loc] at h; simp [h]
    | some s =>
      simp only [normalize_loc] at h
      split_ifs at h <;> simp_all

/-! ## Game-type normalization (SportsRefScrape.py lines 88-92, 126-133)

The schedule page consulted for game types is modelled as a partial lookup
`lookup : Int → Option String` from (serial) dates to the raw game-type
string; `lookup d = none` models a date absent from the schedule page, on
which the source crashes (`soup2.find(...)` returns `None` and the chained
`.find_parent` raises `AttributeError`).  Only the month of the optional
`enddate` argument is consulted, so it is modelled as `Option Int`. -/

/-- The two sequential rewrites `if gtype == "REG": gtype = "RG"` and
`if gtype == "CTOURN": gtype = "CT"` of `get_game_data`. -/
def normalize_gtype (g : String) : String :=
  let g1 := if g = "REG" then "RG" else g
  if g1 = "CTOURN" then "CT" else g1

/-- The game-type computation of `get_game_data`: the schedule lookup is
consulted when `enddate==None or enddate.month >= 2`, otherwise the type
is set to `"REG"`; the result then goes through the two rewrites. -/
def compute_gtype (enddateMonth : Option Int) (lookup : Int → Option String)
    (date : Int) : Option String :=
  match (match enddateMonth with
         | none => lookup date
         | some m => if m ≥ 2 then lookup date else some "REG") with
  | none => none
  | some g => some (normalize_gtype g)

/-- Claim C5, counterexample: with no end-date filter (`enddateMonth = none`)
and a date outside the lookup's covered window, the code consults the lookup
and fails (`none`); it does not default to `"RG"` as the claim states.
Conversely the `"RG"` default does fire with an end-date filter active whose
month is January. -/
theorem gtype_default_counterexample :
    compute_gtype none (fun _ => none) 0 = none ∧
    compute_gtype none (fun _ => none) 0 ≠ some "RG" ∧
    compute_gtype (some 1) (fun _ => none) 0 = some "RG" := by
  refine ⟨rfl, ?_, rfl⟩
  intro h
  simp [compute_gtype] at h

/-- Claim C5, amended: game type is normalized by lookup against the
schedule page for the game's date, with "REG" mapped to "RG" and "CTOURN"
mapped to "CT"; exactly when an end-date filter is active and its month is
earlier than February, the game type defaults to "RG" without consulting
the lookup; whenever the lookup is consulted (no filter, or filter month at
least February), a date outside its covered window makes extraction fail
rather than default. -/
theorem gtype_default_amended :
    (∀ (lookup : Int → Option String) (d : Int),
      compute_gtype none lookup d = (lookup d).map normalize_gtype) ∧
    (∀ (m : Int) (lookup : Int → Option String) (d : Int), m ≥ 2 →
      compute_gtype (some m) lookup d = (lookup d).map normalize_gtype) ∧
    (∀ (m : Int) (lookup : Int → Option String) (d : Int), m < 2 →
      compute_gtype (some m) lookup d = some "RG") ∧
    normalize_gtype "REG" = "RG" ∧ normalize_gtype "CTOURN" = "CT" := by
  refine ⟨?_, ?_, ?_, rfl, rfl⟩
  · intro lookup d
    cases h : lookup d <;> simp [compute_gtype, h]
  · intro m lookup d hm
    cases h : lookup d <;> simp [compute_gtype, h, hm]
  · intro m lookup d hm
    have : ¬ m ≥ 2 := by omega
    simp [compute_gtype, this, normalize_gtype]

/-! ## Winner orientation and location flip (SportsRefScrape.py lines 155-168) -/

/-- Normalized location flag, as written into the `WLoc` column. -/
inductive Loc
  | H
  | A
  | N
deriving DecidableEq

/-- The home/away flip applied when the page's own team lost:
`if loc=="H": loc="A"; elif loc=="A": loc="H"` (neutral unchanged). -/
def flip_loc : Loc → Loc
  | Loc.H => Loc.A
  | Loc.A => Loc.H
  | Loc.N => Loc.N

/-- The winner-oriented part of an emitted game row. -/
structure Oriented where
  wteam : String
  wscore : Int
  lteam : String
  lscore : Int
  wloc : Loc

/-- The orientation step of `get_game_data`: `team` is the team whose page
produced the row (with points `tpts`), `opp` the opponent (points `opts`),
`loc` the already-normalized location relative to `team`.  Source:
`if statdict["pts"] > opp_statdict["pts"]: wd, ld = ... else: ...` with the
location flip in the else branch. -/
def orient_row (team opp : String) (tpts opts : Int) (loc : Loc) : Oriented :=
  if tpts > opts then
    { wteam := team, wscore := tpts, lteam := opp, lscore := opts, wloc := loc }
  else
    { wteam := opp, wscore := opts, lteam := team, lscore := tpts,
      wloc := flip_loc loc }

/-- Claim C4: the team with the higher point total is emitted as the winner
regardless of which team's page produced the row, and when the page's own
team is the loser the location flag is flipped (H to A, A to H, N unchanged)
before being written, so the emitted location is always relative to the
declared winner. -/
theorem orient_winner_loc (team opp : String) (tpts opts : Int) (loc : Loc) :
    (tpts > opts → orient_row team opp tpts opts loc =
      { wteam := team, wscore := tpts, lteam := opp, lscore := opts,
        wloc := loc }) ∧
    (opts > tpts → orient_row team opp tpts opts loc =
      { wteam := opp, wscore := opts, lteam := team, lscore := tpts,
        wloc := flip_loc loc }) ∧
    (tpts ≠ opts →
      (orient_row team opp tpts opts loc).lscore <
        (orient_row team opp tpts opts loc).wscore) ∧
    flip_loc Loc.H = Loc.A ∧ flip_loc Loc.A = Loc.H ∧ flip_loc Loc.N = Loc.N := by
  refine ⟨?_, ?_, ?_, rfl, rfl, rfl⟩
  · intro h
    simp [orient_row, h]
  · intro h
    have h2 : ¬ tpts > opts := by omega
    simp [orient_row, h2]
  · intro h
    by_cases hgt : tpts > opts
    · simp only [orient_row, if_pos hgt]
      omega
    · simp only [orient_row, if_neg hgt]
      omega

/-! ## Box-score stat names (utils.py line 13)

`STATNAMES = ["Score","FGM","FGA","FGM3","FGA3","FTM","FTA","OR","DR",
"Ast","TO","Stl","Blk","PF"]`. -/

/-- The 14 box-score counting stats of `STATNAMES`. -/
inductive StatName
  | Score
  | FGM
  | FGA
  | FGM3
  | FGA3
  | FTM
  | FTA
  | OR
  | DR
  | Ast
  | TO
  | Stl
  | Blk
  | PF
deriving DecidableEq

/-! ## Advanced stats (utils.py lines 125-137)

One row of the season-stats dataframe carries `wins`, `losses`, `totOT` and
the `"T"+sn` / `"O"+sn` columns; `add_advanced_stats` adds the derived
columns.  Dataframe float arithmetic is modelled over `Rat` (0.44 is the
decimal 44/100 the source writes). -/

/-- The `'T'`/`'O'` column prefixes: the loop variable `c` of
`add_advanced_stats`, own side vs opponent side. -/
inductive Side
  | T
  | O
deriving DecidableEq

/-- `opp = 'T' if c=='O' else 'O'` in `add_advanced_stats`. -/
def opp_side : Side → Side
  | Side.T => Side.O
  | Side.O => Side.T

/-- One team/season row of the aggregated stats table, restricted to the
columns `add_advanced_stats` reads. -/
structure SeasonRow where
  wins : Rat
  losses : Rat
  totOT : Rat
  Tstat : StatName → Rat
  Ostat : StatName → Rat

/-- `df[c+sn]` for a side `c` and stat name `sn`. -/
def sideStat (d : SeasonRow) : Side → StatName → Rat
  | Side.T => d.Tstat
  | Side.O => d.Ostat

/-- The derived columns `add_advanced_stats` assigns (per side, plus the
single `rawpace` column). -/
structure AdvRow where
  poss : Side → Rat
  eff : Side → Rat
  astr : Side → Rat
  tovr : Side → Rat
  efgp : Side → Rat
  orbp : Side → Rat
  ftr : Side → Rat
  rawpace : Rat

/-- `add_advanced_stats(df)` from utils.py, for one row of the dataframe:
for each side `c` in `('T','O')` with `opp` the other side,
`poss = FGA + 0.44*FTA - OR + TO`, `eff = 100*Score/poss`,
`astr = Ast/(FGA + 0.44*FTA + Ast + TO)`, `tovr = TO/(FGA + 0.44*FTA + TO)`,
`efgp = (FGM + 0.5*FGM3)/FGA`, `orbp = OR/(OR + oppDR)`, `ftr = FTA/FGA`;
then `rawpace = 0.5*(Tposs+Oposs)/(wins + losses + 0.125*totOT)`. -/
def add_advanced_stats (d : SeasonRow) : AdvRow :=
  let poss := fun c => sideStat d c StatName.FGA + (44/100) * sideStat d c StatName.FTA
      - sideStat d c StatName.OR + sideStat d c StatName.TO
  { poss := poss
  , eff := fun c => 100 * sideStat d c StatName.Score / poss c
  , astr := fun c => sideStat d c StatName.Ast /
      (sideStat d c StatName.FGA + (44/100) * sideStat d c StatName.FTA
        + sideStat d c StatName.Ast + sideStat d c StatName.TO)
  , tovr := fun c => sideStat d c StatName.TO /
      (sideStat d c StatName.FGA + (44/100) * sideStat d c StatName.FTA
        + sideStat d c StatName.TO)
  , efgp := fun c => (sideStat d c StatName.FGM + (1/2) * sideStat d c StatName.FGM3) /
      sideStat d c StatName.FGA
  , orbp := fun c => sideStat d c StatName.OR /
      (sideStat d c StatName.OR + sideStat d (opp_side c) StatName.DR)
  , ftr := fun c => sideStat d c StatName.FTA / sideStat d c StatName.FGA
  , rawpace := (1/2) * (poss Side.T + poss Side.O) /
      (d.wins + d.losses + (1/8) * d.totOT) }

/-- Claim C2: for every team/season row and each side `c` with `opp` the
other side, `add_advanced_stats` computes
`c+poss = c_FGA + 0.44*c_FTA - c_OR + c_TO`, `c+eff = 100*c_Score/c_poss`,
`c+astr = c_Ast/(c_FGA + 0.44*c_FTA + c_Ast + c_TO)`,
`c+tovr = c_TO/(c_FGA + 0.44*c_FTA + c_TO)`,
`c+efgp = (c_FGM + 0.5*c_FGM3)/c_FGA`,
`c+orbp = c_OR/(c_OR + opp_DR)` (cross-referencing the other side's
defensive rebounds), `c+ftr = c_FTA/c_FGA`, and
`rawpace = 0.5*(Tposs+Oposs)/(wins + losses + 0.125*totOT)`. -/
theorem add_advanced_stats_formulas (d : SeasonRow) (c : Side) :
    (add_advanced_stats d).poss c = sideStat d c StatName.FGA
      + (44/100) * sideStat d c StatName.FTA - sideStat d c StatName.OR
      + sideStat d c StatName.TO ∧
    (add_advanced_stats d).eff c =
      100 * sideStat d c StatName.Score / (add_advanced_stats d).poss c ∧
    (add_advanced_stats d).astr c = sideStat d c StatName.Ast /
      (sideStat d c StatName.FGA + (44/100) * sideStat d c StatName.FTA
        + sideStat d c StatName.Ast + sideStat d c StatName.TO) ∧
    (add_advanced_stats d).tovr c = sideStat d c StatName.TO /
      (sideStat d c StatName.FGA + (44/100) * sideStat d c StatName.FTA
        + sideStat d c StatName.TO) ∧
    (add_advanced_stats d).efgp c =
      (sideStat d c StatName.FGM + (1/2) * sideStat d c StatName.FGM3) /
        sideStat d c StatName.FGA ∧
    (add_advanced_stats d).orbp c = sideStat d c StatName.OR /
      (sideStat d c StatName.OR + sideStat d (opp_side c) StatName.DR) ∧
    (add_advanced_stats d).ftr c =
      sideStat d c StatName.FTA / sideStat d c StatName.FGA ∧
    (add_advanced_stats d).rawpace =
      (1/2) * ((add_advanced_stats d).poss Side.T + (add_advanced_stats d).poss Side.O) /
        (d.wins + d.losses + (1/8) * d.totOT) :=
  ⟨rfl, rfl, rfl, rfl, rfl, rfl, rfl, rfl⟩

/-! ## Training-feature compilation (utils.py lines 141-190)

Only the `sort='alphabetical'` branch and the output columns claim C8 is
about are embedded; the season-stats dictionary is abstracted to the one
lookup the `effdiff` column reads, `d[id]["Tneteff"]`. -/

/-- One row of the raw game-level dataframe, restricted to the fields the
embedded columns read. -/
structure TrainGame where
  Season : Int
  WTeamID : String
  LTeamID : String
  WScore : Int
  LScore : Int

/-- The embedded output columns of `compile_training_data`. -/
structure TrainRow where
  result : Bool
  margin : Int
  totscore : Int
  tid1 : String
  tid2 : String
  effdiff : Rat

/-- The per-row body of `compile_training_data` with `sort='alphabetical'`:
`dowin = (row.WTeamID < row.LTeamID)`; `mult = 1 if dowin else -1`;
`id1, id2 = row.WTeamID, row.LTeamID`, swapped when `not dowin`;
`margin = (row.WScore-row.LScore)*mult`;
`effdiff = d[id1]["Tneteff"] - d[id2]["Tneteff"]`. -/
def compile_row_alphabetical (neteff : String → Rat) (r : TrainGame) : TrainRow :=
  let dowin : Bool := decide (r.WTeamID < r.LTeamID)
  let mult : Int := if dowin then 1 else -1
  let id1 := if dowin then r.WTeamID else r.LTeamID
  let id2 := if dowin then r.LTeamID else r.WTeamID
  { result := dowin
  , margin := (r.WScore - r.LScore) * mult
  , totscore := r.WScore + r.LScore
  , tid1 := id1
  , tid2 := id2
  , effdiff := neteff id1 - neteff id2 }

/-- Evaluation of `compile_row_alphabetical` when the winner's code is the
smaller one (`dowin` is true). -/
theorem compile_row_eq_true (neteff : String → Rat) (r : TrainGame)
    (h : r.WTeamID < r.LTeamID) :
    compile_row_alphabetical neteff r =
      { result := true, margin := r.WScore - r.LScore,
        totscore := r.WScore + r.LScore, tid1 := r.WTeamID, tid2 := r.LTeamID,
        effdiff := neteff r.WTeamID - neteff r.LTeamID } := by
  simp [compile_row_alphabetical, h]

/-- Evaluation of `compile_row_alphabetical` when the winner's code is not
the smaller one (`dowin` is false). -/
theorem compile_row_eq_false (neteff : String → Rat) (r : TrainGame)
    (h : ¬ r.WTeamID < r.LTeamID) :
    compile_row_alphabetical neteff r =
      { result := false, margin := -(r.WScore - r.LScore),
        totscore := r.WScore + r.LScore, tid1 := r.LTeamID, tid2 := r.WTeamID,
        effdiff := neteff r.LTeamID - neteff r.WTeamID } := by
  simp [compile_row_alphabetical, h]

/-- Claim C8: with `sort='alphabetical'`, orientation 1 (`tid1`) is the
lexicographically smaller team code independent of which team won, the
emitted `margin` is the winner margin when the smaller-coded team won and
its negation otherwise, `effdiff` is signed relative to `tid1`; and two
games with the same team pair in either winner/loser order get identical
sign conventions (same `tid1`, `tid2`, `effdiff`). -/
theorem compile_training_alphabetical (neteff : String → Rat) (g1 g2 : TrainGame)
    (hne : g1.WTeamID ≠ g1.LTeamID)
    (hw : g2.WTeamID = g1.LTeamID) (hl : g2.LTeamID = g1.WTeamID) :
    (compile_row_alphabetical neteff g1).tid1 = min g1.WTeamID g1.LTeamID ∧
    (compile_row_alphabetical neteff g1).tid2 = max g1.WTeamID g1.LTeamID ∧
    (g1.WTeamID < g1.LTeamID →
      (compile_row_alphabetical neteff g1).margin = g1.WScore - g1.LScore ∧
      (compile_row_alphabetical neteff g1).result = true) ∧
    (g1.LTeamID < g1.WTeamID →
      (compile_row_alphabetical neteff g1).margin = -(g1.WScore - g1.LScore) ∧
      (compile_row_alphabetical neteff g1).result = false) ∧
    (compile_row_alphabetical neteff g1).effdiff =
      neteff ((compile_row_alphabetical neteff g1).tid1) -
        neteff ((compile_row_alphabetical neteff g1).tid2) ∧
    (compile_row_alphabetical neteff g2).tid1 =
      (compile_row_alphabetical neteff g1).tid1 ∧
    (compile_row_alphabetical neteff g2).tid2 =
      (compile_row_alphabetical neteff g1).tid2 ∧
    (compile_row_alphabetical neteff g2).effdiff =
      (compile_row_alphabetical neteff g1).effdiff := by
  rcases lt_trichotomy g1.WTeamID g1.LTeamID with h | h | h
  · have h2 : ¬ g2.WTeamID < g2.LTeamID := by
      rw [hw, hl]; exact not_lt.mpr h.le
    rw [compile_row_eq_true neteff g1 h, compile_row_eq_false neteff g2 h2]
    refine ⟨(min_eq_left h.le).symm, (max_eq_right h.le).symm, ?_, ?_, rfl,
      hl, hw, by rw [hw, hl]⟩
    · intro _; exact ⟨rfl, rfl⟩
    · intro h'; exact absurd h' (asymm h)
  · exact absurd h hne
  · have h1 : ¬ g1.WTeamID < g1.LTeamID := not_lt.mpr h.le
    have h2 : g2.WTeamID < g2.LTeamID := by rw [hw, hl]; exact h
    rw [compile_row_eq_false neteff g1 h1, compile_row_eq_true neteff g2 h2]
    refine ⟨(min_eq_right h.le).symm, (max_eq_left h.le).symm, ?_, ?_, rfl,
      hw, hl, by rw [hw, hl]⟩
    · intro h'; exact absurd h' (asymm h)
    · intro _; exact ⟨rfl, rfl⟩

/-- Witness for claim C8 at a concrete pair of games: `gameAB` has winner
"indiana" over "purdue", `gameBA` winner "purdue" over "indiana". -/
def neteff_sample : String → Rat := fun t => if t = "purdue" then 5 else 2

/-- Concrete game: "indiana" beats "purdue" 70-60. -/
def gameAB : TrainGame :=
  { Season := 2020, WTeamID := "indiana", LTeamID := "purdue",
    WScore := 70, LScore := 60 }

/-- Concrete game: "purdue" beats "indiana" 68-66. -/
def gameBA : TrainGame :=
  { Season := 2020, WTeamID := "purdue", LTeamID := "indiana",
    WScore := 68, LScore := 66 }

/-- Claim C8 witness: the alphabetical-orientation theorem instantiated at
the concrete pair `gameAB`, `gameBA`. -/
theorem compile_training_alphabetical_wit :
    (compile_row_alphabetical neteff_sample gameAB).tid1 =
      min gameAB.WTeamID gameAB.LTeamID ∧
    (compile_row_alphabetical neteff_sample gameAB).tid2 =
      max gameAB.WTeamID gameAB.LTeamID ∧
    (gameAB.WTeamID < gameAB.LTeamID →
      (compile_row_alphabetical neteff_sample gameAB).margin =
        gameAB.WScore - gameAB.LScore ∧
      (compile_row_alphabetical neteff_sample gameAB).result = true) ∧
    (gameAB.LTeamID < gameAB.WTeamID →
      (compile_row_alphabetical neteff_sample gameAB).margin =
        -(gameAB.WScore - gameAB.LScore) ∧
      (compile_row_alphabetical neteff_sample gameAB).result = false) ∧
    (compile_row_alphabetical neteff_sample gameAB).effdiff =
      neteff_sample ((compile_row_alphabetical neteff_sample gameAB).tid1) -
        neteff_sample ((compile_row_alphabetical neteff_sample gameAB).tid2) ∧
    (compile_row_alphabetical neteff_sample gameBA).tid1 =
      (compile_row_alphabetical neteff_sample gameAB).tid1 ∧
    (compile_row_alphabetical neteff_sample gameBA).tid2 =
      (compile_row_alphabetical neteff_sample gameAB).tid2 ∧
    (compile_row_alphabetical neteff_sample gameBA).effdiff =
      (compile_row_alphabetical neteff_sample gameAB).effdiff :=
  compile_training_alphabetical neteff_sample gameAB gameBA
    (by decide) (by decide) (by decide)

/-! ## Game identity and deduplication (SportsRefScrape.py lines 24-27, 64-77,
115-124, 170)

Dates are serial day numbers (`Int`), so `dt.date(...) - dt.timedelta(1)`
is `d - 1`.  A game id is the date together with the two team codes in
sorted order (the source formats these into the string
`"{date}_{t1}_{t2}"`; the triple carries the same information).  The
mutable `gids` / `rows` dictionaries of `get_game_data` are modelled as
total functions from dates to the (initially empty) per-date buckets:
`date not in gids.keys()` followed by `gids[date] = []` is exactly the
empty default, and the guarded membership test
`datem1day in gids.keys() and gidm1day in gids[datem1day]` is membership
in the defaulted bucket.  A candidate row carries the page's team, the
opponent, the date, and the formatted CSV `line` the loop body would emit
for it (the payload is opaque to the dedup logic). -/

/-- A game id: `get_gid(self, date, t1, t2)` returns the date with the two
team codes sorted lexicographically (`tnames = sorted([t1, t2])`). -/
def get_gid (date : Int) (t1 t2 : String) : Int × String × String :=
  if t1 ≤ t2 then (date, t1, t2) else (date, t2, t1)

/-- The `gids`/`rows` state of one `get_game_data` call. -/
structure ScrapeState where
  gids : Int → List (Int × String × String)
  rows : Int → List String

/-- One candidate game row: `date`, the page's `team`, the opponent `opp`,
and the CSV line that would be emitted for it. -/
structure Candidate where
  date : Int
  team : String
  opp : String
  line : String

/-- The duplicate test of `get_game_data` line 121:
`gid in gids[date] or (datem1day in gids.keys() and gidm1day in
gids[datem1day])`. -/
def isDuplicate (st : ScrapeState) (c : Candidate) : Bool :=
  decide (get_gid c.date c.team c.opp ∈ st.gids c.date) ||
    decide (get_gid (c.date - 1) c.team c.opp ∈ st.gids (c.date - 1))

/-- Processing of one candidate row by the inner loop of `get_game_data`:
a duplicate is skipped (`continue`); otherwise its id is appended to the
date's `gids` bucket and its line to the date's `rows` bucket. -/
def processCandidate (st : ScrapeState) (c : Candidate) : ScrapeState :=
  if isDuplicate st c then st
  else
    { gids := fun d => if d = c.date then
        st.gids c.date ++ [get_gid c.date c.team c.opp] else st.gids d
    , rows := fun d => if d = c.date then
        st.rows c.date ++ [c.line] else st.rows d }

/-- Sequential processing of a list of candidate rows. -/
def processCandidates (st : ScrapeState) (cs : List Candidate) : ScrapeState :=
  cs.foldl processCandidate st

/-- `get_gid` is independent of the order of the two team codes. -/
theorem get_gid_comm (d : Int) (a b : String) : get_gid d a b = get_gid d b a := by
  unfold get_gid
  rcases le_total a b with h | h
  · by_cases h2 : b ≤ a
    · have : a = b := le_antisymm h h2
      simp [this]
    · simp [h, h2]
  · by_cases h2 : a ≤ b
    · have : a = b := le_antisymm h2 h
      simp [this]
    · simp [h, h2]

/-- Bucket membership only grows under `processCandidate`. -/
theorem gids_mono (st : ScrapeState) (c : Candidate) (d : Int)
    (g : Int × String × String) (h : g ∈ st.gids d) :
    g ∈ (processCandidate st c).gids d := by
  unfold processCandidate
  split_ifs with hdup
  · exact h
  · by_cases hd : d = c.date
    · subst hd; simp; exact Or.inl h
    · simpa [hd] using h

/-- Bucket membership only grows under `processCandidates`. -/
theorem gids_mono_fold (cs : List Candidate) (st : ScrapeState) (d : Int)
    (g : Int × String × String) (h : g ∈ st.gids d) :
    g ∈ (processCandidates st cs).gids d := by
  induction cs generalizing st with
  | nil => exact h
  | cons c cs ih =>
    exact ih (processCandidate st c) (gids_mono st c d g h)

/-- After a candidate has been processed, the duplicate condition holds for
the same game re-extracted from the opposing team's page (same date, the
two team codes swapped). -/
theorem dup_after_process (st : ScrapeState) (c : Candidate) (line2 : String) :
    isDuplicate (processCandidate st c)
      { date := c.date, team := c.opp, opp := c.team, line := line2 } = true := by
  unfold isDuplicate at *
  simp only [Bool.or_eq_true, decide_eq_true_eq]
  rw [get_gid_comm c.date c.opp c.team, get_gid_comm (c.date - 1) c.opp c.team]
  unfold processCandidate
  split_ifs with hdup
  · unfold isDuplicate at hdup
    simp only [Bool.or_eq_true, decide_eq_true_eq] at hdup
    exact hdup
  · left
    simp

/-- A duplicate candidate leaves the state unchanged. -/
theorem processCandidate_of_dup (st : ScrapeState) (c : Candidate)
    (h : isDuplicate st c = true) : processCandidate st c = st := by
  unfold processCandidate
  rw [h]
  rfl

/-- A duplicate stays a duplicate under further processing. -/
theorem dup_preserved (st : ScrapeState) (c : Candidate) (cs : List Candidate)
    (h : isDuplicate st c = true) :
    isDuplicate (processCandidates st cs) c = true := by
  unfold isDuplicate at *
  simp only [Bool.or_eq_true, decide_eq_true_eq] at h ⊢
  rcases h with h | h
  · exact Or.inl (gids_mono_fold cs st _ _ h)
  · exact Or.inr (gids_mono_fold cs st _ _ h)

/-- Claim C1: a candidate row is skipped (producing no output row and not
changing the state) if and only if its canonical id — date plus the two
team codes sorted — is in the seen-id bucket for its date, or the id
computed with the previous calendar day is in the previous day's bucket;
a non-duplicate registers its id into its date bucket (and its line into
the rows bucket) before any later candidate is examined; consequently,
re-extracting the same game from the opposing team's page — at any later
point of the scan — yields zero additional rows. -/
theorem get_game_data_dedup (st : ScrapeState) (c : Candidate) :
    (get_gid c.date c.team c.opp = get_gid c.date c.opp c.team) ∧
    (isDuplicate st c = true ↔
      (get_gid c.date c.team c.opp ∈ st.gids c.date ∨
        get_gid (c.date - 1) c.team c.opp ∈ st.gids (c.date - 1))) ∧
    (isDuplicate st c = true → processCandidate st c = st) ∧
    (isDuplicate st c = false →
      (processCandidate st c).gids c.date =
        st.gids c.date ++ [get_gid c.date c.team c.opp] ∧
      (processCandidate st c).rows c.date = st.rows c.date ++ [c.line]) ∧
    (∀ (cs : List Candidate) (line2 : String),
      (processCandidates (processCandidate st c)
        (cs ++ [{ date := c.date, team := c.opp, opp := c.team,
                  line := line2 }])).rows =
      (processCandidates (processCandidate st c) cs).rows) := by
  refine ⟨get_gid_comm c.date c.team c.opp, ?_, ?_, ?_, ?_⟩
  · unfold isDuplicate
    simp
  · intro h
    unfold processCandidate
    rw [h]
    rfl
  · intro h
    unfold processCandidate
    rw [h]
    simp
  · intro cs line2
    have hX : isDuplicate (processCandidates (processCandidate st c) cs)
        { date := c.date, team := c.opp, opp := c.team, line := line2 } = true :=
      dup_preserved (processCandidate st c) _ cs (dup_after_process st c line2)
    have h1 : processCandidates (processCandidate st c)
        (cs ++ [{ date := c.date, team := c.opp, opp := c.team, line := line2 }]) =
        processCandidate (processCandidates (processCandidate st c) cs)
          { date := c.date, team := c.opp, opp := c.team, line := line2 } := by
      unfold processCandidates
      rw [List.foldl_append]
      rfl
    rw [h1, processCandidate_of_dup _ _ hX]

/-! ## Season aggregation (utils.py lines 38-90)

`compute_season_stats` folds the per-game dataframe into the nested dict
`stats[year][team_id][stat_name]`.  The dict is modelled as a total
function `Int → String → Option TeamStats` (`none` = key absent).  The
`WLoc` column holds a one-character location code, modelled as `Char`;
`row.poss` is a float column, modelled as `Rat`.  Lines 68-72 interleave
the winner-entry and loser-entry updates stat by stat, and lines 73-88
interleave them list by list; every individual update touches either the
winner's entry or the loser's, and when the two entries coincide
(`wid == lid`) the interleaved order and the grouped order below append
and add in exactly the same sequence, so grouping all winner-entry
updates (`winUpdate`) before all loser-entry updates (`loseUpdate`)
is the same map. -/

/-- One row of the per-game dataframe, restricted to the columns
`compute_season_stats` reads.  `row.WScore`/`row.LScore` are the
`"Score"` entries of `Wstat`/`Lstat` (the CSV stores them as the
`W`/`L`-prefixed `STATNAMES` columns). -/
structure GameRow where
  Season : Int
  WTeamID : String
  LTeamID : String
  WLoc : Char
  NumOT : Int
  poss : Rat
  Wstat : StatName → Int
  Lstat : StatName → Int

/-- The per-team/season accumulator `stats[year][tid]`. -/
structure TeamStats where
  wins : Int
  losses : Int
  totOT : Int
  totPoss : Rat
  opps : List String
  scores : List (Int × Int)
  HA : List Char
  poss : List Rat
  nOT : List Int
  Tstat : StatName → Int
  Ostat : StatName → Int

/-- The freshly initialized accumulator of lines 53-66. -/
def zeroStats : TeamStats :=
  { wins := 0, losses := 0, totOT := 0, totPoss := 0, opps := [], scores := []
  , HA := [], poss := [], nOT := [], Tstat := fun _ => 0, Ostat := fun _ => 0 }

/-- Python `s.find(c)` for a one-character needle: the first index of `c`
in the character list, or `-1`. -/
def pyFind (c : Char) : List Char → Int
  | [] => -1
  | x :: xs =>
      if x = c then 0
      else if pyFind c xs = -1 then -1 else pyFind c xs + 1

/-- Python string indexing `s[i]` with the negative-index convention
(`s[-1]` is the last character); every use below is in range, so the
out-of-range default is arbitrary. -/
def pyIndex (s : List Char) (i : Int) : Char :=
  s.getD (if i < 0 then i + s.length else i).toNat ' '

/-- Line 84 of utils.py: `'HNA'['ANH'.find(row.WLoc)]`, the location code
appended to the loser's `HA` history list. -/
def flipWLoc (c : Char) : Char :=
  pyIndex "HNA".toList (pyFind c "ANH".toList)

/-- The aggregation state: `stats[year][team_id]`, `none` for absent keys. -/
abbrev StatsMap := Int → String → Option TeamStats

/-- Point update of the nested dict. -/
def updMap (m : StatsMap) (y : Int) (t : String) (v : Option TeamStats) :
    StatsMap :=
  fun y2 t2 => if y2 = y ∧ t2 = t then v else m y2 t2

/-- Lines 52-66: initialize the accumulator for a team not seen yet. -/
def initTeam (m : StatsMap) (y : Int) (t : String) : StatsMap :=
  match m y t with
  | some _ => m
  | none => updMap m y t (some zeroStats)

/-- In-place mutation of one (present) entry of the dict. -/
def modifyTeam (m : StatsMap) (y : Int) (t : String)
    (f : TeamStats → TeamStats) : StatsMap :=
  updMap m y t ((m y t).map f)

/-- All updates lines 68-88 apply to the winner's entry `stats[year][wid]`. -/
def winUpdate (r : GameRow) (s : TeamStats) : TeamStats :=
  { s with
    Tstat := fun sn => s.Tstat sn + r.Wstat sn
    Ostat := fun sn => s.Ostat sn + r.Lstat sn
    wins := s.wins + 1
    totOT := s.totOT + r.NumOT
    totPoss := s.totPoss + r.poss
    opps := s.opps ++ [r.LTeamID]
    scores := s.scores ++ [(r.Wstat StatName.Score, r.Lstat StatName.Score)]
    HA := s.HA ++ [r.WLoc]
    poss := s.poss ++ [r.poss]
    nOT := s.nOT ++ [r.NumOT] }

/-- All updates lines 68-88 apply to the loser's entry `stats[year][lid]`. -/
def loseUpdate (r : GameRow) (s : TeamStats) : TeamStats :=
  { s with
    Tstat := fun sn => s.Tstat sn + r.Lstat sn
    Ostat := fun sn => s.Ostat sn + r.Wstat sn
    losses := s.losses + 1
    totOT := s.totOT + r.NumOT
    totPoss := s.totPoss + r.poss
    opps := s.opps ++ [r.WTeamID]
    scores := s.scores ++ [(r.Lstat StatName.Score, r.Wstat StatName.Score)]
    HA := s.HA ++ [flipWLoc r.WLoc]
    poss := s.poss ++ [r.poss]
    nOT := s.nOT ++ [r.NumOT] }

/-- The loop body of `compute_season_stats` for one row: initialize both
participants if absent, then apply the winner-entry and loser-entry
updates. -/
def applyRow (m : StatsMap) (r : GameRow) : StatsMap :=
  modifyTeam
    (modifyTeam (initTeam (initTeam m r.Season r.WTeamID) r.Season r.LTeamID)
      r.Season r.WTeamID (winUpdate r))
    r.Season r.LTeamID (loseUpdate r)

/-- The empty `stats = {}` dict. -/
def emptyStats : StatsMap := fun _ _ => none

/-- `compute_season_stats(df)` from utils.py: fold the rows in order into
the nested dict. -/
def compute_season_stats (df : List GameRow) : StatsMap :=
  df.foldl applyRow emptyStats

theorem initTeam_get (m : StatsMap) (y : Int) (t : String) (y2 : Int)
    (t2 : String) :
    initTeam m y t y2 t2 =
      if y2 = y ∧ t2 = t then some ((m y t).getD zeroStats) else m y2 t2 := by
  unfold initTeam
  cases h : m y t with
  | none => simp [updMap, h]
  | some s =>
    split_ifs with hc
    · obtain ⟨rfl, rfl⟩ := hc
      show m y2 t2 = some ((some s).getD zeroStats)
      rw [h]
      rfl
    · rfl

theorem modifyTeam_get (m : StatsMap) (y : Int) (t : String)
    (f : TeamStats → TeamStats) (y2 : Int) (t2 : String) :
    modifyTeam m y t f y2 t2 =
      if y2 = y ∧ t2 = t then (m y t).map f else m y2 t2 := rfl

/-- Pointwise value of the loop body: the winner's entry gets `winUpdate`,
the loser's `loseUpdate`, a shared entry (`wid == lid`) both in order,
and every other entry is untouched. -/
theorem applyRow_get (m : StatsMap) (r : GameRow) (y : Int) (t : String) :
    applyRow m r y t =
      if y = r.Season ∧ t = r.WTeamID ∧ t = r.LTeamID then
        some (loseUpdate r (winUpdate r ((m y t).getD zeroStats)))
      else if y = r.Season ∧ t = r.WTeamID then
        some (winUpdate r ((m y t).getD zeroStats))
      else if y = r.Season ∧ t = r.LTeamID then
        some (loseUpdate r ((m y t).getD zeroStats))
      else m y t := by
  unfold applyRow
  by_cases hy : y = r.Season
  · by_cases hw : t = r.WTeamID
    · by_cases hl : t = r.LTeamID
      · simp [modifyTeam_get, initTeam_get, hy, hw, hl.symm.trans hw]
      · have hwl : ¬ r.WTeamID = r.LTeamID := fun h2 => hl (hw.trans h2)
        have hlw : ¬ r.LTeamID = r.WTeamID := fun h2 => hl (hw.trans h2.symm)
        simp [modifyTeam_get, initTeam_get, hy, hw, hl, hwl, hlw]
    · by_cases hl : t = r.LTeamID
      · have hwl : ¬ r.WTeamID = r.LTeamID := fun h2 => hw (hl.trans h2.symm)
        have hlw : ¬ r.LTeamID = r.WTeamID := fun h2 => hw (hl.trans h2)
        simp [modifyTeam_get, initTeam_get, hy, hl, hw, hwl, hlw]
      · simp [modifyTeam_get, initTeam_get, hy, hw, hl]
  · simp [modifyTeam_get, initTeam_get, hy]

/-- Generic additive field of the fold: if `g` grows by `dW` under the
winner-entry update and by `dL` under the loser-entry update, its value at
`(y, t)` after the fold is its initial value plus the sum of the per-row
contributions. -/
theorem foldl_scalar {M : Type} [AddCommMonoid M] (g : TeamStats → M)
    (dW dL : GameRow → M)
    (hW : ∀ r s, g (winUpdate r s) = g s + dW r)
    (hL : ∀ r s, g (loseUpdate r s) = g s + dL r)
    (l : List GameRow) (m : StatsMap) (y : Int) (t : String) :
    g (((List.foldl applyRow m l) y t).getD zeroStats) =
      g ((m y t).getD zeroStats) +
        (l.map (fun r =>
          (if y = r.Season ∧ t = r.WTeamID then dW r else 0) +
          (if y = r.Season ∧ t = r.LTeamID then dL r else 0))).sum := by
  induction l generalizing m with
  | nil => simp
  | cons r l ih =>
    rw [List.foldl_cons, ih (applyRow m r), List.map_cons, List.sum_cons,
      applyRow_get]
    by_cases hy : y = r.Season
    · by_cases hw : t = r.WTeamID
      · by_cases hl : t = r.LTeamID
        · simp [hy, hw, hl, hw.symm.trans hl, hW, hL]
          abel
        · have hwl : ¬ r.WTeamID = r.LTeamID := fun h2 => hl (hw.trans h2)
          simp [hy, hw, hl, hwl, hW]
          abel
      · by_cases hl : t = r.LTeamID
        · have hlw : ¬ r.LTeamID = r.WTeamID := fun h2 => hw (hl.trans h2)
          simp [hy, hw, hl, hlw, hL]
          abel
        · simp [hy, hw, hl]
    · simp [hy]

/-- Generic history list of the fold: if `g` is extended by `aW` under the
winner-entry update and by `aL` under the loser-entry update, its value at
`(y, t)` after the fold is its initial value followed by the concatenated
per-row contributions, in input order. -/
theorem foldl_hist {α : Type} (g : TeamStats → List α) (aW aL : GameRow → List α)
    (hW : ∀ r s, g (winUpdate r s) = g s ++ aW r)
    (hL : ∀ r s, g (loseUpdate r s) = g s ++ aL r)
    (l : List GameRow) (m : StatsMap) (y : Int) (t : String) :
    g (((List.foldl applyRow m l) y t).getD zeroStats) =
      g ((m y t).getD zeroStats) ++
        l.flatMap (fun r =>
          (if y = r.Season ∧ t = r.WTeamID then aW r else []) ++
          (if y = r.Season ∧ t = r.LTeamID then aL r else [])) := by
  induction l generalizing m with
  | nil => simp
  | cons r l ih =>
    rw [List.foldl_cons, ih (applyRow m r), List.flatMap_cons, applyRow_get]
    by_cases hy : y = r.Season
    · by_cases hw : t = r.WTeamID
      · by_cases hl : t = r.LTeamID
        · simp [hy, hw, hl, hw.symm.trans hl, hW, hL]
        · have hwl : ¬ r.WTeamID = r.LTeamID := fun h2 => hl (hw.trans h2)
          simp [hy, hw, hl, hwl, hW]
      · by_cases hl : t = r.LTeamID
        · have hlw : ¬ r.LTeamID = r.WTeamID := fun h2 => hw (hl.trans h2)
          simp [hy, hw, hl, hlw, hL]
        · simp [hy, hw, hl]
    · simp [hy]

/-- An entry exists after one row exactly if it existed before or the row
mentions the team in that season. -/
theorem applyRow_isSome (m : StatsMap) (r : GameRow) (y : Int) (t : String) :
    ((applyRow m r) y t).isSome = true ↔
      ((m y t).isSome = true ∨
        (y = r.Season ∧ (t = r.WTeamID ∨ t = r.LTeamID))) := by
  rw [applyRow_get]
  split_ifs with h1 h2 h3
  · simp [h1.1, h1.2.1]
  · simp [h2.1, h2.2]
  · simp [h3.1, h3.2]
  · constructor
    · exact fun h => Or.inl h
    · rintro (h | ⟨hs, hw | hl⟩)
      · exact h
      · exact absurd ⟨hs, hw⟩ h2
      · exact absurd ⟨hs, hl⟩ h3

/-- An entry exists after the fold exactly if it existed initially or some
row mentions the team in that season. -/
theorem foldl_isSome (l : List GameRow) (m : StatsMap) (y : Int) (t : String) :
    ((List.foldl applyRow m l) y t).isSome = true ↔
      ((m y t).isSome = true ∨
        ∃ r ∈ l, y = r.Season ∧ (t = r.WTeamID ∨ t = r.LTeamID)) := by
  induction l generalizing m with
  | nil => simp
  | cons r l ih =>
    rw [List.foldl_cons, ih (applyRow m r), applyRow_isSome]
    constructor
    · rintro ((hm | hr) | ⟨r2, hr2, hp⟩)
      · exact Or.inl hm
      · exact Or.inr ⟨r, List.mem_cons_self r l, hr⟩
      · exact Or.inr ⟨r2, List.mem_cons_of_mem r hr2, hp⟩
    · rintro (hm | ⟨r2, hr2, hp⟩)
      · exact Or.inl (Or.inl hm)
      · rcases List.mem_cons.mp hr2 with rfl | hr3
        · exact Or.inl (Or.inr hp)
        · exact Or.inr ⟨r2, hr3, hp⟩

/-- The scalar (non-history) fields of an accumulator: `wins`, `losses`,
`totOT`, `totPoss`, and the 14 `"T"`-prefixed and 14 `"O"`-prefixed
totals. -/
def scalarPart (s : TeamStats) :
    Int × Int × Int × Rat × (StatName → Int) × (StatName → Int) :=
  (s.wins, s.losses, s.totOT, s.totPoss, s.Tstat, s.Ostat)

/-- Claim C3: for every permutation of the input game sequence,
`compute_season_stats` yields identical values for all scalar fields of
every (season, team) accumulator — including absence/presence of the key —
and each of the five per-game history lists is a permutation of its
counterpart (they can differ only in element order). -/
theorem compute_season_stats_perm_invariance (l l2 : List GameRow)
    (hp : l.Perm l2) (y : Int) (t : String) :
    ((compute_season_stats l) y t).map scalarPart =
      ((compute_season_stats l2) y t).map scalarPart ∧
    (((compute_season_stats l) y t).getD zeroStats).opps.Perm
      (((compute_season_stats l2) y t).getD zeroStats).opps ∧
    (((compute_season_stats l) y t).getD zeroStats).scores.Perm
      (((compute_season_stats l2) y t).getD zeroStats).scores ∧
    (((compute_season_stats l) y t).getD zeroStats).HA.Perm
      (((compute_season_stats l2) y t).getD zeroStats).HA ∧
    (((compute_season_stats l) y t).getD zeroStats).poss.Perm
      (((compute_season_stats l2) y t).getD zeroStats).poss ∧
    (((compute_season_stats l) y t).getD zeroStats).nOT.Perm
      (((compute_season_stats l2) y t).getD zeroStats).nOT := by
  have hgen : ∀ {M : Type} [AddCommMonoid M] (g : TeamStats → M)
      (dW dL : GameRow → M),
      (∀ r s, g (winUpdate r s) = g s + dW r) →
      (∀ r s, g (loseUpdate r s) = g s + dL r) →
      g (((compute_season_stats l) y t).getD zeroStats) =
        g (((compute_season_stats l2) y t).getD zeroStats) := by
    intro M _ g dW dL hW hL
    unfold compute_season_stats
    rw [foldl_scalar g dW dL hW hL, foldl_scalar g dW dL hW hL]
    congr 1
    exact (hp.map _).sum_eq
  have hhist : ∀ {α : Type} (g : TeamStats → List α)
      (aW aL : GameRow → List α),
      (∀ r s, g (winUpdate r s) = g s ++ aW r) →
      (∀ r s, g (loseUpdate r s) = g s ++ aL r) →
      g zeroStats = [] →
      (g (((compute_season_stats l) y t).getD zeroStats)).Perm
        (g (((compute_season_stats l2) y t).getD zeroStats)) := by
    intro α g aW aL hW hL hz
    unfold compute_season_stats
    rw [foldl_hist g aW aL hW hL, foldl_hist g aW aL hW hL]
    simp only [emptyStats, Option.getD_none, hz, List.nil_append]
    exact hp.flatMap_right _
  refine ⟨?_,
    hhist TeamStats.opps (fun r => [r.LTeamID]) (fun r => [r.WTeamID])
      (fun r s => rfl) (fun r s => rfl) rfl,
    hhist TeamStats.scores
      (fun r => [(r.Wstat StatName.Score, r.Lstat StatName.Score)])
      (fun r => [(r.Lstat StatName.Score, r.Wstat StatName.Score)])
      (fun r s => rfl) (fun r s => rfl) rfl,
    hhist TeamStats.HA (fun r => [r.WLoc]) (fun r => [flipWLoc r.WLoc])
      (fun r s => rfl) (fun r s => rfl) rfl,
    hhist TeamStats.poss (fun r => [r.poss]) (fun r => [r.poss])
      (fun r s => rfl) (fun r s => rfl) rfl,
    hhist TeamStats.nOT (fun r => [r.NumOT]) (fun r => [r.NumOT])
      (fun r s => rfl) (fun r s => rfl) rfl⟩
  have ew : (((compute_season_stats l) y t).getD zeroStats).wins =
      (((compute_season_stats l2) y t).getD zeroStats).wins :=
    hgen TeamStats.wins (fun _ => 1) (fun _ => 0)
      (fun r s => by simp [winUpdate]) (fun r s => by simp [loseUpdate])
  have el : (((compute_season_stats l) y t).getD zeroStats).losses =
      (((compute_season_stats l2) y t).getD zeroStats).losses :=
    hgen TeamStats.losses (fun _ => 0) (fun _ => 1)
      (fun r s => by simp [winUpdate]) (fun r s => by simp [loseUpdate])
  have eo : (((compute_season_stats l) y t).getD zeroStats).totOT =
      (((compute_season_stats l2) y t).getD zeroStats).totOT :=
    hgen TeamStats.totOT (fun r => r.NumOT) (fun r => r.NumOT)
      (fun r s => by simp [winUpdate]) (fun r s => by simp [loseUpdate])
  have ep : (((compute_season_stats l) y t).getD zeroStats).totPoss =
      (((compute_season_stats l2) y t).getD zeroStats).totPoss :=
    hgen TeamStats.totPoss (fun r => r.poss) (fun r => r.poss)
      (fun r s => by simp [winUpdate]) (fun r s => by simp [loseUpdate])
  have et : ∀ sn, (((compute_season_stats l) y t).getD zeroStats).Tstat sn =
      (((compute_season_stats l2) y t).getD zeroStats).Tstat sn :=
    fun sn => hgen (fun s => s.Tstat sn) (fun r => r.Wstat sn)
      (fun r => r.Lstat sn)
      (fun r s => by simp [winUpdate]) (fun r s => by simp [loseUpdate])
  have eo2 : ∀ sn, (((compute_season_stats l) y t).getD zeroStats).Ostat sn =
      (((compute_season_stats l2) y t).getD zeroStats).Ostat sn :=
    fun sn => hgen (fun s => s.Ostat sn) (fun r => r.Lstat sn)
      (fun r => r.Wstat sn)
      (fun r s => by simp [winUpdate]) (fun r s => by simp [loseUpdate])
  have hsome : ((compute_season_stats l) y t).isSome = true ↔
      ((compute_season_stats l2) y t).isSome = true := by
    unfold compute_season_stats
    rw [foldl_isSome, foldl_isSome]
    constructor
    · rintro (hm | ⟨r, hr, hx⟩)
      · exact Or.inl hm
      · exact Or.inr ⟨r, hp.mem_iff.mp hr, hx⟩
    · rintro (hm | ⟨r, hr, hx⟩)
      · exact Or.inl hm
      · exact Or.inr ⟨r, hp.mem_iff.mpr hr, hx⟩
  cases hx : (compute_season_stats l) y t with
  | none =>
    cases hx2 : (compute_season_stats l2) y t with
    | none => rfl
    | some b => rw [hx, hx2] at hsome; simp at hsome
  | some a =>
    cases hx2 : (compute_season_stats l2) y t with
    | none => rw [hx, hx2] at hsome; simp at hsome
    | some b =>
      rw [hx, hx2] at ew el eo ep et eo2
      simp only [Option.getD_some] at ew el eo ep et eo2
      have : scalarPart a = scalarPart b := by
        unfold scalarPart
        rw [ew, el, eo, ep, funext et, funext eo2]
      show some (scalarPart a) = some (scalarPart b)
      rw [this]

/-- Concrete game row: "purdue" beats "indiana" at home, no overtime. -/
def rowA : GameRow :=
  { Season := 2020, WTeamID := "purdue", LTeamID := "indiana", WLoc := 'H',
    NumOT := 0, poss := 70, Wstat := fun _ => 3, Lstat := fun _ => 2 }

/-- Concrete game row: "indiana" beats "rutgers" away, one overtime. -/
def rowB : GameRow :=
  { Season := 2020, WTeamID := "indiana", LTeamID := "rutgers", WLoc := 'A',
    NumOT := 1, poss := 65, Wstat := fun _ => 4, Lstat := fun _ => 1 }

/-- Claim C3 witness: the permutation-invariance theorem instantiated at the
concrete two-game lists `[rowA, rowB]` and `[rowB, rowA]` for the team
"indiana" (which appears in both games, once as loser and once as winner). -/
theorem compute_season_stats_perm_invariance_wit :
    ((compute_season_stats [rowA, rowB]) 2020 "indiana").map scalarPart =
      ((compute_season_stats [rowB, rowA]) 2020 "indiana").map scalarPart ∧
    (((compute_season_stats [rowA, rowB]) 2020 "indiana").getD zeroStats).opps.Perm
      (((compute_season_stats [rowB, rowA]) 2020 "indiana").getD zeroStats).opps ∧
    (((compute_season_stats [rowA, rowB]) 2020 "indiana").getD zeroStats).scores.Perm
      (((compute_season_stats [rowB, rowA]) 2020 "indiana").getD zeroStats).scores ∧
    (((compute_season_stats [rowA, rowB]) 2020 "indiana").getD zeroStats).HA.Perm
      (((compute_season_stats [rowB, rowA]) 2020 "indiana").getD zeroStats).HA ∧
    (((compute_season_stats [rowA, rowB]) 2020 "indiana").getD zeroStats).poss.Perm
      (((compute_season_stats [rowB, rowA]) 2020 "indiana").getD zeroStats).poss ∧
    (((compute_season_stats [rowA, rowB]) 2020 "indiana").getD zeroStats).nOT.Perm
      (((compute_season_stats [rowB, rowA]) 2020 "indiana").getD zeroStats).nOT :=
  compute_season_stats_perm_invariance [rowA, rowB] [rowB, rowA]
    (List.Perm.swap rowB rowA []) 2020 "indiana"

/-- The history-length invariant of a single accumulator: each of the five
per-game history lists has length `wins + losses`. -/
def lengthsMatch (s : TeamStats) : Prop :=
  (s.opps.length : Int) = s.wins + s.losses ∧
  (s.scores.length : Int) = s.wins + s.losses ∧
  (s.HA.length : Int) = s.wins + s.losses ∧
  (s.poss.length : Int) = s.wins + s.losses ∧
  (s.nOT.length : Int) = s.wins + s.losses

theorem lengthsMatch_zero : lengthsMatch zeroStats := by
  simp [lengthsMatch, zeroStats]

theorem lengthsMatch_win (r : GameRow) (s : TeamStats) (h : lengthsMatch s) :
    lengthsMatch (winUpdate r s) := by
  obtain ⟨h1, h2, h3, h4, h5⟩ := h
  simp only [lengthsMatch, winUpdate, List.length_append, List.length_singleton]
  push_cast
  omega

theorem lengthsMatch_lose (r : GameRow) (s : TeamStats) (h : lengthsMatch s) :
    lengthsMatch (loseUpdate r s) := by
  obtain ⟨h1, h2, h3, h4, h5⟩ := h
  simp only [lengthsMatch, loseUpdate, List.length_append, List.length_singleton]
  push_cast
  omega

/-- The history-length invariant holds of every entry throughout the fold. -/
theorem foldl_lengthsMatch (l : List GameRow) (m : StatsMap)
    (hm : ∀ y t s, m y t = some s → lengthsMatch s) :
    ∀ y t s, (List.foldl applyRow m l) y t = some s → lengthsMatch s := by
  induction l generalizing m with
  | nil => exact hm
  | cons r l ih =>
    refine ih (applyRow m r) ?_
    intro y t s hs
    rw [applyRow_get] at hs
    have hbase : lengthsMatch ((m y t).getD zeroStats) := by
      cases h2 : m y t with
      | none => simpa using lengthsMatch_zero
      | some s2 => simpa using hm y t s2 h2
    split_ifs at hs with h1 h2 h3
    · exact (Option.some.inj hs) ▸ lengthsMatch_lose _ _ (lengthsMatch_win _ _ hbase)
    · exact (Option.some.inj hs) ▸ lengthsMatch_win _ _ hbase
    · exact (Option.some.inj hs) ▸ lengthsMatch_lose _ _ hbase
    · exact hm y t s hs

/-- Claim C7: for every input sequence and every prefix of it, each of the
five per-game history lists of every (season, team) accumulator present in
the result of `compute_season_stats` has length exactly `wins + losses`. -/
theorem history_lengths_eq_games (l : List GameRow) (n : Nat) (y : Int)
    (t : String) (s : TeamStats)
    (h : (compute_season_stats (List.take n l)) y t = some s) :
    (s.opps.length : Int) = s.wins + s.losses ∧
    (s.scores.length : Int) = s.wins + s.losses ∧
    (s.HA.length : Int) = s.wins + s.losses ∧
    (s.poss.length : Int) = s.wins + s.losses ∧
    (s.nOT.length : Int) = s.wins + s.losses :=
  foldl_lengthsMatch (List.take n l) emptyStats
    (by intro y2 t2 s2 h2; simp [emptyStats] at h2) y t s h

/-- Claim C7 witness: the history-length theorem at the concrete one-row
input `[rowA]`, prefix length 1, key (2020, "purdue"). -/
theorem history_lengths_eq_games_wit :
    (((winUpdate rowA zeroStats).opps.length : Int) =
      (winUpdate rowA zeroStats).wins + (winUpdate rowA zeroStats).losses) ∧
    (((winUpdate rowA zeroStats).scores.length : Int) =
      (winUpdate rowA zeroStats).wins + (winUpdate rowA zeroStats).losses) ∧
    (((winUpdate rowA zeroStats).HA.length : Int) =
      (winUpdate rowA zeroStats).wins + (winUpdate rowA zeroStats).losses) ∧
    (((winUpdate rowA zeroStats).poss.length : Int) =
      (winUpdate rowA zeroStats).wins + (winUpdate rowA zeroStats).losses) ∧
    (((winUpdate rowA zeroStats).nOT.length : Int) =
      (winUpdate rowA zeroStats).wins + (winUpdate rowA zeroStats).losses) :=
  history_lengths_eq_games [rowA] 1 2020 "purdue" (winUpdate rowA zeroStats)
    (by rfl)

/-- Claim C9: in `compute_season_stats`, the entry appended to the loser's
`HA` history list is `'HNA'['ANH'.find(row.WLoc)]`, which flips the
winner's location ('A' to 'H', 'N' to 'N', 'H' to 'A'); and for any other
`WLoc` character the expression does not raise — `find` returns `-1`,
which selects the last character of `'HNA'`, silently coercing the
unrecognized code to 'A'. -/
theorem loser_HA_flip :
    flipWLoc 'A' = 'H' ∧ flipWLoc 'N' = 'N' ∧ flipWLoc 'H' = 'A' ∧
    (∀ c : Char, c ≠ 'A' → c ≠ 'N' → c ≠ 'H' → flipWLoc c = 'A') ∧
    (∀ (m : StatsMap) (r : GameRow), r.WTeamID ≠ r.LTeamID →
      ((applyRow m r) r.Season r.LTeamID).map TeamStats.HA =
        some (((m r.Season r.LTeamID).getD zeroStats).HA ++
          [flipWLoc r.WLoc])) := by
  refine ⟨rfl, rfl, rfl, ?_, ?_⟩
  · intro c h1 h2 h3
    have e : "ANH".toList = ['A', 'N', 'H'] := rfl
    rw [flipWLoc, e]
    simp [pyFind, pyIndex, Ne.symm h1, Ne.symm h2, Ne.symm h3]
  · intro m r hne
    have hlw : ¬ r.LTeamID = r.WTeamID := fun h2 => hne h2.symm
    rw [applyRow_get]
    simp [hlw, loseUpdate]
